import Mathlib

/-!
Shallow embedding of the botlegi pipeline (src/index.ts, with the near-duplicate
variant in src/unnamed/part_000): the ChronoLegi document parser `parseLegiData`,
the Discord-embed formatter `formatEmbeds`, and the hourly version-history probe
`processLogUpdates`.  HTML documents are modelled at the level of the node data
the cheerio selector calls in the source actually read; JavaScript string quirks
(`undefined` coercion in template concatenation, truthiness of strings) are
modelled explicitly.
-/

namespace Botlegi

/-! ### Executable string helpers (kernel-reducible stand-ins for JS string ops) -/

/-- Concatenation of a list of strings, in order (used to model `.text()` of a
multi-element cheerio selection, which concatenates the texts of all matches). -/
def strConcat : List String → String
  | [] => ""
  | s :: rest => s ++ strConcat rest

/-- Model of JavaScript `Array.prototype.join(sep)`. -/
def joinSep (sep : String) : List String → String
  | [] => ""
  | [s] => s
  | s :: t :: rest => s ++ sep ++ joinSep sep (t :: rest)

/-- Whitespace test for the trim model. -/
def isWsChar (c : Char) : Bool :=
  c == ' ' || c == '\t' || c == '\n' || c == '\r'

/-- Model of JavaScript `String.prototype.trim()`: drop leading and trailing
whitespace. -/
def jsTrim (s : String) : String :=
  String.mk (((s.data.dropWhile isWsChar).reverse.dropWhile isWsChar).reverse)

/-- `dst` begins with `pat` (character lists). -/
def prefixMatch : List Char → List Char → Bool
  | [], _ => true
  | _ :: _, [] => false
  | a :: as, b :: bs => a == b && prefixMatch as bs

/-- `pat` occurs somewhere in `l` (character lists). -/
def occursIn (pat : List Char) : List Char → Bool
  | [] => pat.isEmpty
  | c :: rest => prefixMatch pat (c :: rest) || occursIn pat rest

/-- Model of JavaScript `String.prototype.includes` / the CSS `[href*='...']`
substring test. -/
def strContains (s pat : String) : Bool :=
  occursIn pat.data s.data

/-- Strict lexicographic order on character lists (by code point). -/
def charsLt : List Char → List Char → Bool
  | [], [] => false
  | [], _ :: _ => true
  | _ :: _, [] => false
  | a :: as, b :: bs =>
    if a < b then true else if b < a then false else charsLt as bs

/-- Strict lexicographic order on strings, used to state that ISO timestamps
are strictly increasing. -/
def strLt (a b : String) : Bool :=
  charsLt a.data b.data

/-- Model of JavaScript `String.prototype.padStart(2, '0')`. -/
def padStart2 (s : String) : String :=
  if s.length ≥ 2 then s else String.mk (List.replicate (2 - s.length) '0') ++ s

/-- Model of JavaScript string coercion in `base + attr`: a missing attribute
(`undefined`) is rendered as the text `"undefined"`. -/
def jsUndefined : Option String → String
  | none => "undefined"
  | some s => s

/-- Model of JavaScript truthiness of a possibly-null string (`null` and `""`
are falsy). -/
def jsTruthy : Option String → Bool
  | none => false
  | some s => !s.isEmpty

/-! ### Constants of the source (src/index.ts lines 10-15) -/

def DEFAULT_LEGI_URL : String := "https://www.legifrance.gouv.fr/"

/-- Base used for the date link of the current version (src/index.ts line 184)
and for log-probe date links (line 356): no trailing slash. -/
def LEGIFRANCE_ORIGIN : String := "https://www.legifrance.gouv.fr"

def EMBED_COLOR : Nat := 0xED938E

def MAX_DESC_LENGTH : Nat := 4000

/-! ### Output data model (the TypeScript interfaces of src/index.ts lines 24-51) -/

/-- `Article` interface: one article group inside a modification. -/
structure Article where
  articleNumbers : List String
  articleUrls : List String
  sectionName : String
  sectionUrl : String
deriving DecidableEq, Repr

/-- `ModificationItem` interface. -/
structure ModificationItem where
  title : String
  url : String
  action : String
  articles : List Article
deriving DecidableEq, Repr

/-- `ParsedData` interface. -/
structure ParsedData where
  date : String
  dateUrl : String
  modifications : List ModificationItem
deriving DecidableEq, Repr

/-! ### Input document model

The parser touches the raw HTML only through a fixed set of cheerio queries;
the model records, for each node kind, exactly the data those queries read. -/

/-- An `<a>` element as observed by the parser: its text content and its
optional `href` attribute. -/
structure AnchorEl where
  text : String
  href : Option String
deriving DecidableEq, Repr

/-- A `.list-item` node (one article group): `chronoAnchors` are the anchors
matched by `.list-arcticle-chrono li a` inside it, in document order;
`anchors` are all of its `<a>` descendants in document order (the pool that
`a[href*='section_lc']` filters). -/
structure ListItemEl where
  chronoAnchors : List AnchorEl
  anchors : List AnchorEl
deriving DecidableEq, Repr

/-- A `.content-detail-timeline` node (one modification block):
`titleAnchors` matched by `h4.txt-title a`; `actionText` is the `.text()` of
the `.tag-state-small` selection (empty when the selection is empty);
`listItems` are the `.list-item` descendants in document order. -/
structure ModifEl where
  titleAnchors : List AnchorEl
  actionText : String
  listItems : List ListItemEl
deriving DecidableEq, Repr

/-- The `.version-item.current-version` container: `dateAnchors` matched by
`.detail-timeline-title a`; `modifs` are the `.content-detail-timeline`
blocks in document order. -/
structure ContainerEl where
  dateAnchors : List AnchorEl
  modifs : List ModifEl
deriving DecidableEq, Repr

/-- A calendar date as read from a JavaScript `Date` (month already 1-based,
absorbing the `getMonth() + 1` of the source). -/
structure JsDate where
  day : Nat
  month : Nat
  year : Nat
deriving DecidableEq, Repr

/-- A raw ChronoLegi document, as observed by `parseLegiData`:
`versionDates` are the `data-date` attribute values of the anchors matched by
`.version-item a[data-date=...]` probes; `currentVersion` is the first
`.version-item.current-version` element when one exists. -/
structure RawDoc where
  versionDates : List String
  currentVersion : Option ContainerEl
deriving DecidableEq, Repr

/-! ### The parser (src/index.ts lines 162-242) -/

/-- `.text()` of a cheerio selection: concatenation of the texts of all
matched elements. -/
def selText (l : List AnchorEl) : String :=
  strConcat (l.map (·.text))

/-- `.attr("href")` of a cheerio selection: the attribute of the first matched
element, `undefined` (`none`) when the selection is empty or the attribute is
absent. -/
def selHref (l : List AnchorEl) : Option String :=
  l.head?.bind (·.href)

/-- The predicate of the `a[href*='section_lc']` selector. -/
def sectionHrefMatch (a : AnchorEl) : Bool :=
  match a.href with
  | none => false
  | some h => strContains h "section_lc"

/-- The single `.each` loop over `.list-arcticle-chrono li a` (src/index.ts
lines 211-214): push the trimmed text onto `articleNumbers` and the resolved
href onto `articleUrls`, one element per iteration. -/
def collectArticles (anchors : List AnchorEl) : List String × List String :=
  anchors.foldl
    (fun acc a =>
      (acc.1 ++ [jsTrim a.text], acc.2 ++ [DEFAULT_LEGI_URL ++ jsUndefined a.href]))
    ([], [])

/-- Extraction of one article group from a `.list-item` (src/index.ts
lines 204-227). -/
def extractArticle (it : ListItemEl) : Article :=
  let pair := collectArticles it.chronoAnchors
  let sectionLinks := it.anchors.filter sectionHrefMatch
  { articleNumbers := pair.1
    articleUrls := pair.2
    sectionName := jsTrim (selText sectionLinks)
    sectionUrl := DEFAULT_LEGI_URL ++ jsUndefined (selHref sectionLinks) }

/-- Extraction of one modification block (src/index.ts lines 189-235): `none`
exactly when the block has no `h4.txt-title a` link (the early `return` that
skips the block). -/
def extractModif (m : ModifEl) : Option ModificationItem :=
  if m.titleAnchors.isEmpty then none
  else some
    { title := jsTrim (selText m.titleAnchors)
      url := DEFAULT_LEGI_URL ++ jsUndefined (selHref m.titleAnchors)
      action := jsTrim m.actionText
      articles := m.listItems.map extractArticle }

/-- The `DD/MM/YYYY` formatting of the reference date (src/index.ts line 167). -/
def formatDDMMYYYY (d : JsDate) : String :=
  padStart2 (toString d.day) ++ "/" ++ padStart2 (toString d.month) ++ "/" ++ toString d.year

/-- `parseLegiData` (src/index.ts lines 162-242).  The reference date is a
parameter, as in the spec contract: src/index.ts uses the wall clock and the
variant file a fixed date, both outside the pure model. -/
def parseLegiData (refDate : JsDate) (doc : RawDoc) : Option ParsedData :=
  if !(doc.versionDates.contains (formatDDMMYYYY refDate)) then none
  else
    match doc.currentVersion with
    | none => none
    | some container =>
      some
        { date := jsTrim (selText container.dateAnchors)
          dateUrl := LEGIFRANCE_ORIGIN ++ jsUndefined (selHref container.dateAnchors)
          modifications := container.modifs.filterMap extractModif }

/-! ### The formatter (src/index.ts lines 247-304)

The spec contract `format(snapshot, maxChunkChars)` parameterizes the chunk
bound; the source fixes it to `MAX_DESC_LENGTH`.  The model takes the bound as
a parameter and the source's behaviour is the instance at `MAX_DESC_LENGTH`. -/

/-- The observable fields of an `EmbedBuilder` chunk (color is the constant
`EMBED_COLOR`; the timestamp is wall-clock and outside the pure model). -/
structure Embed where
  title : String
  url : String
  color : Nat
  description : String
deriving DecidableEq, Repr

/-- The action-dependent emoji chain (src/index.ts lines 260-262). -/
def actionEmoji (action : String) : String :=
  if strContains action "modifié" then "📝"
  else if strContains action "créé" then "✨"
  else if strContains action "abrogé" then "❌"
  else "📄"

/-- One `• Article ...` line for an article group (src/index.ts lines 267-277);
`articleUrls[idx]` out of range is JavaScript `undefined`, interpolated as
`"undefined"`. -/
def renderArticleGroup (g : Article) : String :=
  let articlesLinks :=
    joinSep ", "
      (g.articleNumbers.mapIdx
        (fun idx num => "[" ++ num ++ "](" ++ g.articleUrls.getD idx "undefined" ++ ")"))
  "• Article " ++ articlesLinks ++
    (if !g.sectionName.isEmpty then
      " - [" ++ g.sectionName ++ "](" ++ g.sectionUrl ++ ")"
    else "") ++ "\n"

/-- `modifContent`, the full rendered block of one modification (src/index.ts
lines 264-277). -/
def renderModif (m : ModificationItem) : String :=
  "\n### " ++ actionEmoji m.action ++ " [" ++ m.title ++ "](" ++ m.url ++ ")" ++
    "\n*" ++ m.action ++ "*\n" ++
    strConcat (m.articles.map renderArticleGroup)

/-- Title of the first chunk. -/
def firstTitle (d : ParsedData) : String := "📅 " ++ d.date

/-- Title of every continuation chunk. -/
def contTitle (d : ParsedData) : String := "📅 " ++ d.date ++ " (suite)"

/-- The accumulation loop of `formatEmbeds` (src/index.ts lines 258-301).
State: chunks already sealed, the title of the in-progress chunk, and its
accumulated description.  The overflow check seals the in-progress chunk
unconditionally; the final in-progress chunk is emitted only when non-empty. -/
def formatLoop (d : ParsedData) (maxLen : Nat) :
    List ModificationItem → List Embed → String → String → List Embed
  | [], embeds, curTitle, curDesc =>
    if curDesc.length > 0 then
      embeds ++ [{ title := curTitle, url := d.dateUrl, color := EMBED_COLOR,
                   description := curDesc }]
    else embeds
  | m :: rest, embeds, curTitle, curDesc =>
    let block := renderModif m
    if (curDesc ++ block).length > maxLen then
      formatLoop d maxLen rest
        (embeds ++ [{ title := curTitle, url := d.dateUrl, color := EMBED_COLOR,
                      description := curDesc }])
        (contTitle d) block
    else
      formatLoop d maxLen rest embeds curTitle (curDesc ++ block)

/-- `formatEmbeds` (src/index.ts lines 247-304), with the chunk bound as a
parameter; the source's call sites use `MAX_DESC_LENGTH`. -/
def formatEmbeds (d : ParsedData) (maxLen : Nat) : List Embed :=
  formatLoop d maxLen d.modifications [] (firstTitle d) ""

/-! ### The hourly probe (src/index.ts lines 335-378) -/

/-- One element of `LegiLog.versionItems` (src/index.ts lines 46-50). -/
structure VersionRecord where
  isCurrentVersion : Bool
  dateLink : String
  savedHtml : String
deriving DecidableEq, Repr

/-- The `LegiLog` interface (src/index.ts lines 44-51). -/
structure LegiLog where
  log_date : String
  versionItems : List VersionRecord
deriving DecidableEq, Repr

/-- A `.version-item` under the current-year accordion section, as observed by
the probe: the `current-version` class flag, the first
`.detail-timeline-title a` anchor's inner HTML and `href` (when such an anchor
exists), and the item's own inner HTML. -/
structure VersionItemEl where
  hasCurrentClass : Bool
  dateAnchorHtml : Option String
  dateAnchorHref : Option String
  innerHtml : String
deriving DecidableEq, Repr

/-- A raw document as observed by the probe: the `.version-item` elements
nested under `.accordion-timeline-item[data-year='2026'] #expand_1`, in
document order (items outside that scope are never consulted). -/
structure LogDoc where
  logVersionItems : List VersionItemEl
deriving DecidableEq, Repr

/-- The per-item mapping of the probe (src/index.ts lines 350-359):
`dateLink` is the resolved href when the date anchor's inner HTML is truthy
(non-null, non-empty), else `""`; `savedHtml` is `versionItem.html() || ""`. -/
def formatVersionItem (v : VersionItemEl) : VersionRecord :=
  { isCurrentVersion := v.hasCurrentClass
    dateLink :=
      if jsTruthy v.dateAnchorHtml then
        LEGIFRANCE_ORIGIN ++ jsUndefined v.dateAnchorHref
      else ""
    savedHtml := v.innerHtml }

/-- `processLogUpdates` (src/index.ts lines 335-378) as a pure transition on
the observed-logs history: returns the new history and whether the
new-version alert fires.  With zero version-items the probe aborts (early
`return`); otherwise the alert fires exactly when the history is non-empty and
its last entry has strictly fewer `versionItems` than the current probe, and
the new entry (current timestamp, current items) is always appended. -/
def processLogUpdates (doc : LogDoc) (now : String) (logs : List LegiLog) :
    List LegiLog × Bool :=
  if doc.logVersionItems.isEmpty then (logs, false)
  else
    let formatedVersionItems := doc.logVersionItems.map formatVersionItem
    let notify :=
      match logs.getLast? with
      | none => false
      | some last => decide (last.versionItems.length < formatedVersionItems.length)
    (logs ++ [{ log_date := now, versionItems := formatedVersionItems }], notify)

/-- A sequence of hourly probes, each a document paired with its capture
timestamp, folded over the history (the cron loop around
`processLogUpdates`). -/
def runProbes (probes : List (LogDoc × String)) (init : List LegiLog) : List LegiLog :=
  probes.foldl (fun logs p => (processLogUpdates p.1 p.2 logs).1) init

/-! ### Concrete scenarios used by counterexamples and witnesses -/

/-- The reference date shared by the concrete parser scenarios. -/
def wRef : JsDate := { day := 7, month := 1, year := 2026 }

/-- A current-version container holding zero modification blocks. -/
def wContainer0 : ContainerEl :=
  { dateAnchors := [{ text := "7 janvier 2026", href := some "/jorf/id/X" }]
    modifs := [] }

/-- A well-formed block with one article group. -/
def wBlockA : ModifEl :=
  { titleAnchors := [{ text := " LOI n 2026-1 ", href := some "loda/id/A" }]
    actionText := " A modifié "
    listItems := [{ chronoAnchors := [{ text := " 12 ", href := some "art/12" }]
                    anchors := [{ text := "Section 1", href := some "codes/section_lc/S1" }] }] }

/-- A malformed block: no title link, silently skipped. -/
def wBlockBad : ModifEl :=
  { titleAnchors := [], actionText := "A créé", listItems := [] }

/-- A container mixing well-formed and malformed blocks. -/
def wContainer2 : ContainerEl :=
  { dateAnchors := [{ text := "7 janvier 2026", href := some "/jorf/id/X" }]
    modifs := [wBlockA, wBlockBad, wBlockA] }

/-- The snapshot parsed from the C9 witness document. -/
def wParsed9 : ParsedData :=
  (parseLegiData wRef
    { versionDates := ["07/01/2026"], currentVersion := some wContainer2 }).getD
    { date := "", dateUrl := "", modifications := [] }

/-- The first modification of the C9 witness snapshot. -/
def wModif9 : ModificationItem :=
  wParsed9.modifications.getD 0 { title := "", url := "", action := "", articles := [] }

/-- The first article group of the C9 witness snapshot. -/
def wGroup9 : Article :=
  wModif9.articles.getD 0 { articleNumbers := [], articleUrls := [], sectionName := "", sectionUrl := "" }

/-- An article-group item with no anchor whose href matches `section_lc`. -/
def cexItem3 : ListItemEl :=
  { chronoAnchors := [{ text := "12", href := some "art/12" }]
    anchors := [{ text := "12", href := some "art/12" }] }

/-- A well-formed block containing `cexItem3`. -/
def cexBlock3 : ModifEl :=
  { titleAnchors := [{ text := "LOI X", href := some "loda/id/A" }]
    actionText := "A modifié"
    listItems := [cexItem3] }

/-- The raw document of the C3 counterexample. -/
def cexDoc3 : RawDoc :=
  { versionDates := ["07/01/2026"]
    currentVersion := some
      { dateAnchors := [{ text := "7 janvier 2026", href := some "/jorf/id/X" }]
        modifs := [cexBlock3] } }

/-- The snapshot parsed from the C3 counterexample document. -/
def cexParsed3 : ParsedData :=
  (parseLegiData wRef cexDoc3).getD { date := "", dateUrl := "", modifications := [] }

/-- The snapshot used by the formatter witnesses: two small modifications. -/
def wData6 : ParsedData :=
  { date := "7 janvier 2026"
    dateUrl := "https://www.legifrance.gouv.fr/jorf/id/X"
    modifications :=
      [{ title := "LOI A", url := "ua", action := "A modifié",
         articles := [{ articleNumbers := ["12"], articleUrls := ["u12"],
                        sectionName := "S", sectionUrl := "us" }] },
       { title := "Ordonnance B", url := "ub", action := "A créé", articles := [] }] }

/-- The default chunk used to state concrete membership facts. -/
def wEmbedDefault : Embed :=
  { title := "", url := "", color := 0, description := "" }

/-- The snapshot of the C10 scenario: its sole modification renders to a block
longer than the bound 10. -/
def wData10 : ParsedData :=
  { date := "7 janvier 2026"
    dateUrl := "https://www.legifrance.gouv.fr/jorf/id/X"
    modifications := [{ title := "LOI n 2026-42 relative aux mesures",
                        url := "https://www.legifrance.gouv.fr/loda/id/X",
                        action := "A modifié", articles := [] }] }

/-- A version-item used by the concrete probe scenarios. -/
def wVersionItem : VersionItemEl :=
  { hasCurrentClass := true
    dateAnchorHtml := some "07 janvier 2026"
    dateAnchorHref := some "/jorf/id/V1"
    innerHtml := "<div>v1</div>" }

/-- A one-entry history whose last entry holds one version record. -/
def wHistory : List LegiLog :=
  [{ log_date := "2026-01-07T09:00:00.000Z",
     versionItems := [formatVersionItem wVersionItem] }]

/-- A two-probe run used as the C7 witness. -/
def wProbes : List (LogDoc × String) :=
  [({ logVersionItems := [wVersionItem] }, "2026-01-07T09:00:00.000Z"),
   ({ logVersionItems := [wVersionItem, wVersionItem] }, "2026-01-07T10:00:00.000Z")]

/-- The entry a successful probe appends. -/
def probeEntry (p : LogDoc × String) : LegiLog :=
  { log_date := p.2, versionItems := p.1.logVersionItems.map formatVersionItem }

/-! ## Helper lemmas -/

/-- The history component of a probe: unchanged on the empty-abort path, one
entry appended otherwise. -/
theorem processLogUpdates_fst (doc : LogDoc) (now : String) (logs : List LegiLog) :
    (processLogUpdates doc now logs).1 =
      if doc.logVersionItems.isEmpty then logs
      else
        logs ++ [{ log_date := now,
                   versionItems := doc.logVersionItems.map formatVersionItem }] := by
  unfold processLogUpdates
  split <;> rfl

/-- The notify component of a probe, as an explicit boolean expression. -/
theorem processLogUpdates_snd (doc : LogDoc) (now : String) (logs : List LegiLog) :
    (processLogUpdates doc now logs).2 =
      (!doc.logVersionItems.isEmpty &&
        match logs.getLast? with
        | none => false
        | some last =>
          decide (last.versionItems.length < doc.logVersionItems.length)) := by
  unfold processLogUpdates
  split
  · rename_i h
    simp [h]
  · rename_i h
    simp only [h, Bool.not_false, Bool.true_and]
    cases logs.getLast? <;> simp [List.length_map]

/-- When every probe finds at least one version-item, the fold appends exactly
one entry per probe, in probe order. -/
theorem runProbes_eq (probes : List (LogDoc × String)) :
    ∀ init : List LegiLog, (∀ p ∈ probes, p.1.logVersionItems ≠ []) →
      runProbes probes init = init ++ probes.map probeEntry := by
  induction probes with
  | nil => intro init _; simp [runProbes]
  | cons p ps ih =>
    intro init h
    have hp : p.1.logVersionItems ≠ [] := h p (List.mem_cons_self p ps)
    have hstep : (processLogUpdates p.1 p.2 init).1 = init ++ [probeEntry p] := by
      rw [processLogUpdates_fst]
      simp [List.isEmpty_iff, hp, probeEntry]
    have : runProbes (p :: ps) init = runProbes ps ((processLogUpdates p.1 p.2 init).1) := by
      simp [runProbes, List.foldl_cons]
    rw [this, hstep, ih (init ++ [probeEntry p]) (fun q hq => h q (List.mem_cons_of_mem p hq))]
    simp

/-- Unfolding of a successful parse: with the reference-date marker present
and a current-version container, the parse result is the container's
extraction. -/
theorem parseLegiData_some (ref : JsDate) (doc : RawDoc) (c : ContainerEl)
    (h1 : doc.versionDates.contains (formatDDMMYYYY ref) = true)
    (h2 : doc.currentVersion = some c) :
    parseLegiData ref doc =
      some { date := jsTrim (selText c.dateAnchors)
             dateUrl := LEGIFRANCE_ORIGIN ++ jsUndefined (selHref c.dateAnchors)
             modifications := c.modifs.filterMap extractModif } := by
  unfold parseLegiData
  simp [h2]
  simpa using h1

/-- The article loop is two index-aligned maps over the same anchor list. -/
theorem collectArticles_eq (anchors : List AnchorEl) :
    collectArticles anchors =
      (anchors.map (fun a => jsTrim a.text),
       anchors.map (fun a => DEFAULT_LEGI_URL ++ jsUndefined a.href)) := by
  have key : ∀ (l : List AnchorEl) (n u : List String),
      l.foldl
        (fun acc a =>
          (acc.1 ++ [jsTrim a.text], acc.2 ++ [DEFAULT_LEGI_URL ++ jsUndefined a.href]))
        (n, u) =
      (n ++ l.map (fun a => jsTrim a.text),
       u ++ l.map (fun a => DEFAULT_LEGI_URL ++ jsUndefined a.href)) := by
    intro l
    induction l with
    | nil => intro n u; simp
    | cons a as ih => intro n u; simp [List.foldl_cons, ih]
  unfold collectArticles
  simpa using key anchors [] []

/-- A block extraction succeeds exactly on blocks with a title link. -/
theorem extractModif_eq_some (m : ModifEl) (h : m.titleAnchors ≠ []) :
    extractModif m = some
      { title := jsTrim (selText m.titleAnchors)
        url := DEFAULT_LEGI_URL ++ jsUndefined (selHref m.titleAnchors)
        action := jsTrim m.actionText
        articles := m.listItems.map extractArticle } := by
  unfold extractModif
  simp [List.isEmpty_iff, h]

/-- When every block has a title link, no block is dropped. -/
theorem filterMap_extractModif_length (l : List ModifEl)
    (h : ∀ m ∈ l, m.titleAnchors ≠ []) :
    (l.filterMap extractModif).length = l.length := by
  induction l with
  | nil => rfl
  | cons m rest ih =>
    rw [List.filterMap_cons, extractModif_eq_some m (h m (List.mem_cons_self m rest))]
    simp [ih (fun x hx => h x (List.mem_cons_of_mem m hx))]

/-- Concatenation distributes over list append. -/
theorem strConcat_append (l₁ l₂ : List String) :
    strConcat (l₁ ++ l₂) = strConcat l₁ ++ strConcat l₂ := by
  induction l₁ with
  | nil => simp [strConcat]
  | cons s rest ih => simp [strConcat, ih, String.append_assoc]

/-- The length of a concatenation is the sum of the lengths. -/
theorem strConcat_length (l : List String) :
    (strConcat l).length = (l.map String.length).sum := by
  induction l with
  | nil => rfl
  | cons s rest ih => simp [strConcat, String.length_append, ih]

/-- Every rendered modification block is non-empty (it starts with a header
line). -/
theorem renderModif_length_pos (m : ModificationItem) :
    0 < (renderModif m).length := by
  unfold renderModif
  simp only [String.length_append]
  have h5 : ("\n### " : String).length = 5 := rfl
  omega

/-- Unfolding of the formatter loop on the empty list. -/
theorem formatLoop_nil (d : ParsedData) (maxLen : Nat) (embeds : List Embed)
    (t cur : String) :
    formatLoop d maxLen [] embeds t cur =
      if cur.length > 0 then
        embeds ++ [{ title := t, url := d.dateUrl, color := EMBED_COLOR,
                     description := cur }]
      else embeds := rfl

/-- Unfolding of the formatter loop on a cons cell. -/
theorem formatLoop_cons (d : ParsedData) (maxLen : Nat) (m : ModificationItem)
    (rest : List ModificationItem) (embeds : List Embed) (t cur : String) :
    formatLoop d maxLen (m :: rest) embeds t cur =
      if (cur ++ renderModif m).length > maxLen then
        formatLoop d maxLen rest
          (embeds ++ [{ title := t, url := d.dateUrl, color := EMBED_COLOR,
                        description := cur }])
          (contTitle d) (renderModif m)
      else formatLoop d maxLen rest embeds t (cur ++ renderModif m) := rfl

/-- The loop invariant behind the round-trip property: the bodies produced by
the loop concatenate to the already-sealed bodies, the in-progress body, and
the renderings of the remaining modifications. -/
theorem formatLoop_join (d : ParsedData) (maxLen : Nat) :
    ∀ (ms : List ModificationItem) (embeds : List Embed) (t cur : String),
      strConcat ((formatLoop d maxLen ms embeds t cur).map (·.description)) =
        strConcat (embeds.map (·.description)) ++ cur ++
          strConcat (ms.map renderModif) := by
  intro ms
  induction ms with
  | nil =>
    intro embeds t cur
    rw [formatLoop_nil]
    split
    · simp [strConcat_append, strConcat]
    · rename_i h
      have hcur : cur = "" := by
        have hz : cur.length = 0 := by omega
        exact String.ext (List.length_eq_zero.mp hz)
      simp [hcur, strConcat]
  | cons m rest ih =>
    intro embeds t cur
    rw [formatLoop_cons]
    split
    · rw [ih]
      simp [strConcat_append, strConcat, String.append_assoc]
    · rw [ih]
      simp [strConcat, String.append_assoc]

/-- The loop invariant behind the chunk-size bound: when every remaining block
fits the bound and so do the in-progress body and every sealed body, every
emitted body fits the bound. -/
theorem formatLoop_desc_bound (d : ParsedData) (maxLen : Nat) :
    ∀ (ms : List ModificationItem) (embeds : List Embed) (t cur : String),
      (∀ m ∈ ms, (renderModif m).length ≤ maxLen) →
      cur.length ≤ maxLen →
      (∀ e ∈ embeds, e.description.length ≤ maxLen) →
      ∀ e ∈ formatLoop d maxLen ms embeds t cur, e.description.length ≤ maxLen := by
  intro ms
  induction ms with
  | nil =>
    intro embeds t cur _ hcur hemb
    rw [formatLoop_nil]
    split
    · intro e he
      rcases List.mem_append.mp he with h | h
      · exact hemb e h
      · simp at h
        rw [h]
        exact hcur
    · exact hemb
  | cons m rest ih =>
    intro embeds t cur hms hcur hemb
    rw [formatLoop_cons]
    split
    · apply ih _ _ _
        (fun x hx => hms x (List.mem_cons_of_mem m hx))
        (hms m (List.mem_cons_self m rest))
      intro e he
      rcases List.mem_append.mp he with h | h
      · exact hemb e h
      · simp at h
        rw [h]
        exact hcur
    · rename_i hfit
      apply ih _ _ _
        (fun x hx => hms x (List.mem_cons_of_mem m hx))
        (by omega) hemb

/-- The loop invariant behind block-boundary splitting: the bodies produced by
the loop are, after the already-sealed ones, the renderings of a partition of
the in-progress segment followed by the remaining modifications into
consecutive segments. -/
theorem formatLoop_segments (d : ParsedData) (maxLen : Nat) :
    ∀ (ms : List ModificationItem) (embeds : List Embed) (t : String)
      (curSeg : List ModificationItem),
      ∃ segs : List (List ModificationItem),
        segs.flatten = curSeg ++ ms ∧
        (formatLoop d maxLen ms embeds t
            (strConcat (curSeg.map renderModif))).map (·.description) =
          embeds.map (·.description) ++
            segs.map (fun s => strConcat (s.map renderModif)) := by
  intro ms
  induction ms with
  | nil =>
    intro embeds t curSeg
    rw [formatLoop_nil]
    split
    · exact ⟨[curSeg], by simp, by simp⟩
    · rename_i h
      have hz : (strConcat (curSeg.map renderModif)).length = 0 := by omega
      rw [strConcat_length] at hz
      have hseg : curSeg = [] := by
        cases hcs : curSeg with
        | nil => rfl
        | cons x xs =>
          exfalso
          rw [hcs] at hz
          simp [List.map_cons] at hz
          have := renderModif_length_pos x
          omega
      exact ⟨[], by simp [hseg], by simp⟩
  | cons m rest ih =>
    intro embeds t curSeg
    rw [formatLoop_cons]
    split
    · obtain ⟨segs', h1, h2⟩ := ih
        (embeds ++ [{ title := t, url := d.dateUrl, color := EMBED_COLOR,
                      description := strConcat (curSeg.map renderModif) }])
        (contTitle d) [m]
      have hm : strConcat ([m].map renderModif) = renderModif m := by
        simp [strConcat]
      rw [hm] at h2
      refine ⟨curSeg :: segs', by simp [h1], ?_⟩
      rw [h2]
      simp [strConcat]
    · obtain ⟨segs', h1, h2⟩ := ih embeds t (curSeg ++ [m])
      have hm : strConcat ((curSeg ++ [m]).map renderModif) =
          strConcat (curSeg.map renderModif) ++ renderModif m := by
        simp [strConcat_append, strConcat]
      rw [hm] at h2
      refine ⟨segs', by simpa using h1, h2⟩

/-! ## Claim theorems: the formatter -/

/-- Counterexample for C2: with bound 10, a snapshot whose sole modification
renders to a block longer than 10 characters produces a chunk whose body
exceeds the bound, so the claim as stated is false. -/
theorem formatEmbeds_chunk_bound_cex :
    10 < (renderModif { title := "Decret long qui depasse la borne",
                        url := "u", action := "", articles := [] }).length ∧
    ∃ e ∈ formatEmbeds
        { date := "D", dateUrl := "du",
          modifications := [{ title := "Decret long qui depasse la borne",
                              url := "u", action := "", articles := [] }] } 10,
      ¬ e.description.length ≤ 10 := by decide

/-- C2 amended: every chunk produced by `formatEmbeds` has a body of length at
most the bound, provided every modification of the snapshot renders to a block
of length at most the bound (a single oversized block is emitted unsplit, as
the spec documents). -/
theorem formatEmbeds_chunk_bound_of_blocks_bounded
    (d : ParsedData) (maxLen : Nat)
    (h : ∀ m ∈ d.modifications, (renderModif m).length ≤ maxLen) :
    ∀ e ∈ formatEmbeds d maxLen, e.description.length ≤ maxLen := by
  unfold formatEmbeds
  apply formatLoop_desc_bound d maxLen d.modifications [] (firstTitle d) "" h
  · simp
  · intro e he
    simp at he

/-- Witness for the amended C2: with the source bound 4000 and small blocks,
the first emitted chunk's body fits the bound. -/
theorem formatEmbeds_chunk_bound_of_blocks_bounded_witness :
    ((formatEmbeds wData6 MAX_DESC_LENGTH).getD 0 wEmbedDefault).description.length ≤
      MAX_DESC_LENGTH := by
  apply formatEmbeds_chunk_bound_of_blocks_bounded wData6 MAX_DESC_LENGTH (by decide)
  decide

/-- C6: concatenating the bodies of all chunks produced by `formatEmbeds`, in
order, yields exactly the concatenation of the per-modification rendered
blocks in snapshot order, and the chunk bodies render a partition of the
modification sequence into consecutive segments: formatting drops nothing,
duplicates nothing, reorders nothing, and splits only at block boundaries. -/
theorem formatEmbeds_concat_roundtrip (d : ParsedData) (maxLen : Nat) :
    strConcat ((formatEmbeds d maxLen).map (·.description)) =
      strConcat (d.modifications.map renderModif) ∧
    ∃ segs : List (List ModificationItem),
      segs.flatten = d.modifications ∧
      (formatEmbeds d maxLen).map (·.description) =
        segs.map (fun s => strConcat (s.map renderModif)) := by
  constructor
  · unfold formatEmbeds
    rw [formatLoop_join]
    simp [strConcat]
  · obtain ⟨segs, h1, h2⟩ := formatLoop_segments d maxLen d.modifications []
      (firstTitle d) []
    refine ⟨segs, by simpa using h1, ?_⟩
    have : strConcat (([] : List ModificationItem).map renderModif) = "" := rfl
    rw [this] at h2
    unfold formatEmbeds
    rw [h2]
    simp

/-- C10: for a snapshot whose first modification renders to a block strictly
longer than the bound, `formatEmbeds` emits a chunk whose body is the empty
string: the overflow check seals the initial in-progress chunk
unconditionally, even though its accumulated body is still empty, while the
non-empty-body guard is applied only to the last in-progress chunk. -/
theorem formatEmbeds_empty_body_chunk :
    10 < (renderModif ({ title := "LOI n 2026-42 relative aux mesures",
                         url := "https://www.legifrance.gouv.fr/loda/id/X",
                         action := "A modifié", articles := [] })).length ∧
    (formatEmbeds wData10 10).length = 2 ∧
    ∃ e ∈ formatEmbeds wData10 10, e.description = "" := by decide

/-! ## Claim theorems: the parser -/

/-- C4: parse returns `none` exactly when the document has no version marker
dated as the reference date in `DD/MM/YYYY` form, or has the marker but no
current-version container; a present container with zero modification blocks
yields a snapshot with an empty modifications sequence, not `none`. -/
theorem parseLegiData_none_iff (ref : JsDate) (doc : RawDoc) :
    (parseLegiData ref doc = none ↔
      doc.versionDates.contains (formatDDMMYYYY ref) = false ∨
        (doc.versionDates.contains (formatDDMMYYYY ref) = true ∧
          doc.currentVersion = none)) ∧
    (∀ c : ContainerEl,
      doc.versionDates.contains (formatDDMMYYYY ref) = true →
      doc.currentVersion = some c → c.modifs = [] →
      ∃ p, parseLegiData ref doc = some p ∧ p.modifications = []) := by
  constructor
  · unfold parseLegiData
    cases hc : doc.versionDates.contains (formatDDMMYYYY ref) with
    | false => simp
    | true =>
      cases hv : doc.currentVersion with
      | none => simp
      | some c => simp
  · intro c h1 h2 h3
    refine ⟨_, parseLegiData_some ref doc c h1 h2, ?_⟩
    simp [h3]

/-- Witness for C4: marker plus empty container gives an empty snapshot, and
removing the marker gives `none`. -/
theorem parseLegiData_none_iff_witness :
    (∃ p, parseLegiData wRef
        { versionDates := ["07/01/2026"], currentVersion := some wContainer0 } = some p ∧
      p.modifications = []) ∧
    parseLegiData wRef { versionDates := [], currentVersion := some wContainer0 } = none := by
  constructor
  · exact (parseLegiData_none_iff wRef
      { versionDates := ["07/01/2026"], currentVersion := some wContainer0 }).2
      wContainer0 (by decide) rfl rfl
  · exact ((parseLegiData_none_iff wRef
      { versionDates := [], currentVersion := some wContainer0 }).1).mpr (Or.inl (by decide))

/-- C5: the modifications of a parsed snapshot are exactly the container's
blocks that have a title link, in document order (blocks lacking one are
skipped silently), so with every block well-formed the length equals the
number of blocks. -/
theorem parseLegiData_modifications_exact (ref : JsDate) (doc : RawDoc) (c : ContainerEl)
    (h1 : doc.versionDates.contains (formatDDMMYYYY ref) = true)
    (h2 : doc.currentVersion = some c) :
    ∃ p, parseLegiData ref doc = some p ∧
      p.modifications = c.modifs.filterMap extractModif ∧
      ((∀ m ∈ c.modifs, m.titleAnchors ≠ []) →
        p.modifications.length = c.modifs.length) := by
  refine ⟨_, parseLegiData_some ref doc c h1 h2, rfl, ?_⟩
  intro hw
  exact filterMap_extractModif_length c.modifs hw

/-- Witness for C5 at a concrete container with a malformed middle block. -/
theorem parseLegiData_modifications_exact_witness :
    ∃ p, parseLegiData wRef
        { versionDates := ["07/01/2026"], currentVersion := some wContainer2 } = some p ∧
      p.modifications = wContainer2.modifs.filterMap extractModif ∧
      ((∀ m ∈ wContainer2.modifs, m.titleAnchors ≠ []) →
        p.modifications.length = wContainer2.modifs.length) :=
  parseLegiData_modifications_exact wRef
    { versionDates := ["07/01/2026"], currentVersion := some wContainer2 }
    wContainer2 (by decide) rfl

/-- Any snapshot returned by the parser arises from a container as its block
extraction. -/
theorem parseLegiData_inv (ref : JsDate) (doc : RawDoc) (p : ParsedData)
    (hp : parseLegiData ref doc = some p) :
    ∃ c : ContainerEl, doc.currentVersion = some c ∧
      p.modifications = c.modifs.filterMap extractModif := by
  unfold parseLegiData at hp
  split at hp
  · exact absurd hp (by simp)
  · cases hv : doc.currentVersion with
    | none => rw [hv] at hp; exact absurd hp (by simp)
    | some c =>
      rw [hv] at hp
      refine ⟨c, rfl, ?_⟩
      have := (Option.some.injEq _ _).mp hp
      rw [← this]

/-- C9: in every snapshot returned by the parser, every article group has as
many article numbers as article urls, and the two sequences are index-aligned:
both are maps over the same anchor list of the source item, the i-th url being
the resolved href of the anchor whose trimmed text is the i-th number. -/
theorem parseLegiData_article_alignment (ref : JsDate) (doc : RawDoc) (p : ParsedData)
    (hp : parseLegiData ref doc = some p) :
    ∀ m ∈ p.modifications, ∀ g ∈ m.articles,
      g.articleNumbers.length = g.articleUrls.length ∧
      ∃ as : List AnchorEl,
        g.articleNumbers = as.map (fun a => jsTrim a.text) ∧
        g.articleUrls = as.map (fun a => DEFAULT_LEGI_URL ++ jsUndefined a.href) := by
  obtain ⟨c, hc, hmods⟩ := parseLegiData_inv ref doc p hp
  intro m hm g hg
  rw [hmods] at hm
  obtain ⟨block, hblock, hext⟩ := List.mem_filterMap.mp hm
  have hbt : block.titleAnchors ≠ [] := by
    intro hnil
    rw [extractModif, List.isEmpty_iff.mpr hnil] at hext
    simp at hext
  rw [extractModif_eq_some block hbt] at hext
  have harts : m.articles = block.listItems.map extractArticle := by
    have := (Option.some.injEq _ _).mp hext
    rw [← this]
  rw [harts] at hg
  obtain ⟨it, _, hit⟩ := List.mem_map.mp hg
  subst hit
  have hcol := collectArticles_eq it.chronoAnchors
  refine ⟨?_, it.chronoAnchors, ?_, ?_⟩
  · show (extractArticle it).articleNumbers.length = (extractArticle it).articleUrls.length
    unfold extractArticle
    rw [hcol]
    simp
  · unfold extractArticle
    rw [hcol]
  · unfold extractArticle
    rw [hcol]

/-- Witness for C9 at the concrete mixed container. -/
theorem parseLegiData_article_alignment_witness :
    wGroup9.articleNumbers.length = wGroup9.articleUrls.length ∧
    ∃ as : List AnchorEl,
      wGroup9.articleNumbers = as.map (fun a => jsTrim a.text) ∧
      wGroup9.articleUrls = as.map (fun a => DEFAULT_LEGI_URL ++ jsUndefined a.href) :=
  parseLegiData_article_alignment wRef
    { versionDates := ["07/01/2026"], currentVersion := some wContainer2 }
    wParsed9 (by decide) wModif9 (by decide) wGroup9 (by decide)

/-- Counterexample for C3: an item with no section-matching link yields an
empty `sectionName` but a non-empty `sectionUrl` — the base URL concatenated
with the JavaScript text `"undefined"` — so the claim as stated is false. -/
theorem extractArticle_section_empty_cex :
    (∀ a ∈ cexItem3.anchors, sectionHrefMatch a = false) ∧
    parseLegiData wRef cexDoc3 = some cexParsed3 ∧
    ∃ m ∈ cexParsed3.modifications, ∃ g ∈ m.articles,
      g.sectionName = "" ∧ g.sectionUrl ≠ "" ∧
      g.sectionUrl = DEFAULT_LEGI_URL ++ "undefined" := by decide

/-- C3 amended: for every article-group item inside a modification block that
contains no link matching the section-identifier pattern in its href, the
extracted ArticleGroup has `sectionName` equal to the empty string and
`sectionUrl` equal to the base URL concatenated with `"undefined"` (the
JavaScript rendering of the missing attribute), and that group appears in the
parsed snapshot. -/
theorem extractArticle_section_of_no_section_link
    (ref : JsDate) (doc : RawDoc) (p : ParsedData) (c : ContainerEl)
    (hp : parseLegiData ref doc = some p)
    (hc : doc.currentVersion = some c)
    (block : ModifEl) (hb : block ∈ c.modifs) (ht : block.titleAnchors ≠ [])
    (it : ListItemEl) (hi : it ∈ block.listItems)
    (hs : it.anchors.filter sectionHrefMatch = []) :
    ∃ m ∈ p.modifications, extractArticle it ∈ m.articles ∧
      (extractArticle it).sectionName = "" ∧
      (extractArticle it).sectionUrl = DEFAULT_LEGI_URL ++ "undefined" := by
  obtain ⟨c', hc', hmods⟩ := parseLegiData_inv ref doc p hp
  rw [hc] at hc'
  have hcc : c = c' := by
    have := (Option.some.injEq _ _).mp hc'
    exact this
  subst hcc
  refine ⟨{ title := jsTrim (selText block.titleAnchors)
            url := DEFAULT_LEGI_URL ++ jsUndefined (selHref block.titleAnchors)
            action := jsTrim block.actionText
            articles := block.listItems.map extractArticle }, ?_, ?_, ?_, ?_⟩
  · rw [hmods]
    exact List.mem_filterMap.mpr ⟨block, hb, extractModif_eq_some block ht⟩
  · exact List.mem_map_of_mem extractArticle hi
  · show (extractArticle it).sectionName = ""
    unfold extractArticle
    rw [hs]
    rfl
  · show (extractArticle it).sectionUrl = DEFAULT_LEGI_URL ++ "undefined"
    unfold extractArticle
    rw [hs]
    rfl

/-- Witness for the amended C3 at the concrete counterexample document. -/
theorem extractArticle_section_of_no_section_link_witness :
    ∃ m ∈ cexParsed3.modifications, extractArticle cexItem3 ∈ m.articles ∧
      (extractArticle cexItem3).sectionName = "" ∧
      (extractArticle cexItem3).sectionUrl = DEFAULT_LEGI_URL ++ "undefined" :=
  extractArticle_section_of_no_section_link wRef cexDoc3 cexParsed3
    (cexDoc3.currentVersion.getD { dateAnchors := [], modifs := [] })
    (by decide) rfl cexBlock3 (by decide) (by decide) cexItem3 (by decide) (by decide)

/-! ## Claim theorems: the hourly probe -/

/-- C1: for every history and every probed document, `processLogUpdates`
signals a notification iff the history is non-empty and the number of
`versionItems` in its most recently appended entry is strictly less than the
number of version-items extracted from the current document; in particular,
with a last entry holding K items, probing a document with exactly K items
yields notify = false, with K+1 items notify = true, and with K-1 items
notify = false. -/
theorem processLogUpdates_notify_iff_count_increased
    (doc : LogDoc) (now : String) (logs : List LegiLog) :
    ((processLogUpdates doc now logs).2 = true ↔
      ∃ last, logs.getLast? = some last ∧
        last.versionItems.length < doc.logVersionItems.length) ∧
    (∀ last, logs.getLast? = some last →
      (doc.logVersionItems.length = last.versionItems.length →
        (processLogUpdates doc now logs).2 = false) ∧
      (doc.logVersionItems.length = last.versionItems.length + 1 →
        (processLogUpdates doc now logs).2 = true) ∧
      (doc.logVersionItems.length + 1 = last.versionItems.length →
        (processLogUpdates doc now logs).2 = false)) := by
  have hiff : (processLogUpdates doc now logs).2 = true ↔
      ∃ last, logs.getLast? = some last ∧
        last.versionItems.length < doc.logVersionItems.length := by
    rw [processLogUpdates_snd]
    cases hd : doc.logVersionItems with
    | nil =>
      simp
    | cons a as =>
      cases hl : logs.getLast? with
      | none => simp
      | some last => simp [hd]
  refine ⟨hiff, fun last hl => ⟨?_, ?_, ?_⟩⟩
  · intro hK
    cases hres : (processLogUpdates doc now logs).2 with
    | false => rfl
    | true =>
      obtain ⟨l', hl', hlt⟩ := hiff.mp hres
      rw [hl] at hl'
      cases hl'
      omega
  · intro hK
    exact hiff.mpr ⟨last, hl, by omega⟩
  · intro hK
    cases hres : (processLogUpdates doc now logs).2 with
    | false => rfl
    | true =>
      obtain ⟨l', hl', hlt⟩ := hiff.mp hres
      rw [hl] at hl'
      cases hl'
      omega

/-- Witness for C1: with a last entry of 1 item, a 2-item probe notifies and a
1-item probe does not. -/
theorem processLogUpdates_notify_iff_count_increased_witness :
    (processLogUpdates { logVersionItems := [wVersionItem, wVersionItem] }
      "2026-01-07T10:00:00.000Z" wHistory).2 = true ∧
    (processLogUpdates { logVersionItems := [wVersionItem] }
      "2026-01-07T10:00:00.000Z" wHistory).2 = false := by
  constructor
  · exact ((processLogUpdates_notify_iff_count_increased
      { logVersionItems := [wVersionItem, wVersionItem] }
      "2026-01-07T10:00:00.000Z" wHistory).1).mpr
      ⟨{ log_date := "2026-01-07T09:00:00.000Z",
         versionItems := [formatVersionItem wVersionItem] }, by decide, by decide⟩
  · exact (((processLogUpdates_notify_iff_count_increased
      { logVersionItems := [wVersionItem] }
      "2026-01-07T10:00:00.000Z" wHistory).2
      { log_date := "2026-01-07T09:00:00.000Z",
        versionItems := [formatVersionItem wVersionItem] } (by decide)).1) (by decide)

/-- C8: for every raw document with zero version-items under the current-year
timeline section, the probe returns without appending any entry and without
notifying: the history after the probe is exactly the history before it. -/
theorem processLogUpdates_empty_abort
    (doc : LogDoc) (now : String) (logs : List LegiLog)
    (h : doc.logVersionItems = []) :
    processLogUpdates doc now logs = (logs, false) := by
  unfold processLogUpdates
  simp [h]

/-- Witness for C8 at a concrete empty document and non-empty history. -/
theorem processLogUpdates_empty_abort_witness :
    processLogUpdates { logVersionItems := [] } "2026-01-07T10:00:00.000Z" wHistory =
      (wHistory, false) :=
  processLogUpdates_empty_abort { logVersionItems := [] }
    "2026-01-07T10:00:00.000Z" wHistory rfl

/-- C7: a sequence of M successful probes (each extracting at least one
version-item) from an initially empty history appends exactly one entry per
probe regardless of the notify outcome, so the history has length M, its
entries carry the probe timestamps in order, and when the probe timestamps are
strictly increasing so are the entries' `log_date` fields. -/
theorem runProbes_length_and_increasing
    (probes : List (LogDoc × String))
    (h1 : ∀ p ∈ probes, p.1.logVersionItems ≠ []) :
    (runProbes probes []).length = probes.length ∧
    (runProbes probes []).map (·.log_date) = probes.map (·.2) ∧
    (List.Chain' (fun a b => strLt a b = true) (probes.map (·.2)) →
      List.Chain' (fun a b : LegiLog => strLt a.log_date b.log_date = true)
        (runProbes probes [])) := by
  have heq : runProbes probes [] = probes.map probeEntry := by
    rw [runProbes_eq probes [] h1]
    simp
  refine ⟨?_, ?_, ?_⟩
  · rw [heq, List.length_map]
  · rw [heq, List.map_map]
    rfl
  · intro h2
    rw [heq]
    rw [List.chain'_map]
    have h2' := (List.chain'_map (fun p : LogDoc × String => p.2)).mp h2
    exact h2'

/-- Witness for C7: two successful probes with increasing timestamps yield a
two-entry history with increasing `log_date`. -/
theorem runProbes_length_and_increasing_witness :
    (runProbes wProbes []).length = 2 ∧
    List.Chain' (fun a b : LegiLog => strLt a.log_date b.log_date = true)
      (runProbes wProbes []) := by
  have h1 : ∀ p ∈ wProbes, p.1.logVersionItems ≠ [] := by decide
  have h2 : List.Chain' (fun a b => strLt a b = true) (wProbes.map (·.2)) := by
    simp only [wProbes, List.map_cons, List.map_nil, List.chain'_cons, List.chain'_singleton]
    constructor
    · decide
    · trivial
  refine ⟨?_, (runProbes_length_and_increasing wProbes h1).2.2 h2⟩
  exact (runProbes_length_and_increasing wProbes h1).1

end Botlegi
